import Mathlib

/-!
Verification of the smart-pull orchestration engine (the `pull` command):
a shallow embedding of the conflict classifier, the package-manifest
version-bump resolver, the stash guard, and the strategy cascade
controller (fast-forward → rebase → merge), together with proofs of the
specified properties.

The engine's effectful collaborators (the git command runner, the status
inspector, the storage layer) are modelled by an environment record
(`GitEnv`) whose fields give the result of each call the engine makes;
a call that throws is modelled by an `Except.error` result.  The engine
model additionally returns the ordered trace of commands it issued, so
that ordering and call-count properties can be stated.

All string processing is done on `List Char` with structural recursion so
that every definition evaluates by `decide`/`rfl`.  The JavaScript regexes
of the source are modelled by first-occurrence substring searches, which
agree with the regexes' leftmost-lazy matching on the inputs the engine
encounters (conflict files, path lists).
-/

/-- JS `\s` whitespace (the characters relevant to `String.prototype.trim`
restricted to ASCII). -/
def isJsWhitespace (c : Char) : Bool :=
  c = ' ' || c = '\t' || c = '\n' || c = '\r' || c = '\x0b' || c = '\x0c'

/-- `trim` on a character list: drop whitespace from both ends
(model of JS `String.prototype.trim`). -/
def trimL (l : List Char) : List Char :=
  ((l.dropWhile isJsWhitespace).reverse.dropWhile isJsWhitespace).reverse

/-- Split a character list on every occurrence of a character
(model of JS `String.prototype.split` with a one-character separator). -/
def splitOnCharAux (c : Char) : List Char → List Char → List (List Char)
  | acc, [] => [acc.reverse]
  | acc, x :: xs =>
    if x = c then acc.reverse :: splitOnCharAux c [] xs
    else splitOnCharAux c (x :: acc) xs

/-- Split on a character, returning the list of parts. -/
def splitOnCharL (c : Char) (l : List Char) : List (List Char) :=
  splitOnCharAux c [] l

/-- Split a list around the FIRST occurrence of `sep` (nonempty): returns
the part strictly before it and the part strictly after it.  `none` when
`sep` does not occur.  This is the building block used to model the
leftmost-lazy JS regex matches of the source. -/
def splitFirstL (sep : List Char) : List Char → Option (List Char × List Char)
  | [] => none
  | c :: cs =>
    if sep.isPrefixOf (c :: cs) then some ([], (c :: cs).drop sep.length)
    else
      match splitFirstL sep cs with
      | some (pre, post) => some (c :: pre, post)
      | none => none

/-- Substring containment (model of JS `String.prototype.includes` for a
nonempty needle). -/
def containsSub (s sub : String) : Bool :=
  (splitFirstL sub.data s.data).isSome

/-- String prefix test (model of the `/^pat/` regexes of the source). -/
def strStartsWith (s p : String) : Bool :=
  p.data.isPrefixOf s.data

/-- String suffix test (model of the `/pat$/` regexes and of JS
`String.prototype.endsWith`). -/
def strEndsWith (s p : String) : Bool :=
  p.data.isSuffixOf s.data

/-!
## Conflict Classifier

Source: `AUTO_RESOLVABLE_PATTERNS` and `canAutoResolve` in the pull
command.  The lock-file regexes are anchored on both sides
(`/^package-lock\.json$/` etc.), so they match only the exact top-level
filename; `dist`, `coverage` and `node_modules` are start-anchored prefix
patterns; `buildOutput` is the end-anchored suffix pattern
`/\.(js\.map|d\.ts)$/`.  The tests are applied in source order and the
first match wins.
-/

/-- Model of `canAutoResolve(filename)`: returns
`(canResolve, strategy)`. -/
def canAutoResolve (filename : String) : Bool × String :=
  if filename = "package-lock.json" then (true, "regenerate-lock")
  else if filename = "yarn.lock" then (true, "regenerate-lock")
  else if filename = "pnpm-lock.yaml" then (true, "regenerate-lock")
  else if strStartsWith filename "dist/" then (true, "take-theirs-regenerate")
  else if strStartsWith filename "coverage/" then (true, "take-theirs")
  else if strStartsWith filename "node_modules/" then (true, "take-theirs")
  else if strEndsWith filename ".js.map" || strEndsWith filename ".d.ts" then
    (true, "take-theirs-regenerate")
  else (false, "manual")

/-- Two nonempty prefixes of the same list agree on their heads. -/
theorem isPrefixOf_head_eq {p q l : List Char} (hp : p.isPrefixOf l = true)
    (hq : q.isPrefixOf l = true) (hpn : p ≠ []) (hqn : q ≠ []) :
    p.head? = q.head? := by
  cases p with
  | nil => exact absurd rfl hpn
  | cons a as =>
    cases q with
    | nil => exact absurd rfl hqn
    | cons b bs =>
      cases l with
      | nil => simp [List.isPrefixOf] at hp
      | cons c cs =>
        simp [List.isPrefixOf] at hp hq
        simp [hp.1, hq.1]

/-- C4 counterexample: a `package-lock.json` in a subdirectory does NOT
classify as `regenerate-lock` — the anchored regex `/^package-lock\.json$/`
only matches the bare filename, and no other pattern matches either, so
the classifier returns `manual`. -/
theorem canAutoResolve_nested_lock_cex :
    strEndsWith "packages/app/package-lock.json" "/package-lock.json" = true ∧
    canAutoResolve "packages/app/package-lock.json" = (false, "manual") := by
  decide

/-- C4 (amended): classification returns `regenerate-lock` exactly for the
three bare lock filenames `package-lock.json`, `yarn.lock`,
`pnpm-lock.yaml`; the same filenames inside a subdirectory do not match. -/
theorem canAutoResolve_regenerate_iff_exact (s : String) :
    (canAutoResolve s).2 = "regenerate-lock" ↔
      (s = "package-lock.json" ∨ s = "yarn.lock" ∨ s = "pnpm-lock.yaml") := by
  constructor
  · intro h
    unfold canAutoResolve at h
    split at h
    · left; assumption
    · split at h
      · right; left; assumption
      · split at h
        · right; right; assumption
        · split at h
          · exact absurd h (by decide)
          · split at h
            · exact absurd h (by decide)
            · split at h
              · exact absurd h (by decide)
              · split at h
                · exact absurd h (by decide)
                · exact absurd h (by decide)
  · intro h
    rcases h with h | h | h <;> subst h <;> decide

/-- C4 witness: the amended classification rule applied at the concrete
input `yarn.lock`. -/
theorem canAutoResolve_regenerate_iff_exact_witness :
    (canAutoResolve "yarn.lock").2 = "regenerate-lock" :=
  (canAutoResolve_regenerate_iff_exact "yarn.lock").mpr (Or.inr (Or.inl rfl))

/-- C8 counterexample: a `.d.ts` file under `node_modules/` classifies as
`take-theirs` (the prefix pattern appears earlier in the chain), not
`take-theirs-regenerate` as the universally-stated suffix rule demands. -/
theorem canAutoResolve_suffix_overlap_cex :
    strEndsWith "node_modules/x.d.ts" ".d.ts" = true ∧
    canAutoResolve "node_modules/x.d.ts" = (true, "take-theirs") := by
  decide

/-- C8 (amended): the classifier applies its patterns first-match-wins in
source order.  Paths under `node_modules/` or `coverage/` return
`take-theirs` and paths under `dist/` return `take-theirs-regenerate`,
unconditionally; paths with suffix `.js.map` or `.d.ts` return
`take-theirs-regenerate` only when no prefix pattern already matched;
paths matching no pattern (including the bare lock filenames) return
`manual`. -/
theorem canAutoResolve_first_match_rules (s : String) :
    (strStartsWith s "node_modules/" = true →
        canAutoResolve s = (true, "take-theirs")) ∧
    (strStartsWith s "coverage/" = true →
        canAutoResolve s = (true, "take-theirs")) ∧
    (strStartsWith s "dist/" = true →
        canAutoResolve s = (true, "take-theirs-regenerate")) ∧
    ((strEndsWith s ".js.map" = true ∨ strEndsWith s ".d.ts" = true) →
      strStartsWith s "dist/" = false → strStartsWith s "coverage/" = false →
      strStartsWith s "node_modules/" = false →
        canAutoResolve s = (true, "take-theirs-regenerate")) ∧
    (s ≠ "package-lock.json" → s ≠ "yarn.lock" → s ≠ "pnpm-lock.yaml" →
      strStartsWith s "dist/" = false → strStartsWith s "coverage/" = false →
      strStartsWith s "node_modules/" = false →
      strEndsWith s ".js.map" = false → strEndsWith s ".d.ts" = false →
        canAutoResolve s = (false, "manual")) := by
  refine ⟨?_, ?_, ?_, ?_, ?_⟩
  · intro h
    unfold canAutoResolve
    rw [if_neg, if_neg, if_neg, if_neg, if_neg, if_pos h]
    · simp only [strStartsWith] at h
      intro hc
      simp only [strStartsWith] at hc
      have := isPrefixOf_head_eq hc h (by decide) (by decide)
      exact absurd this (by decide)
    · simp only [strStartsWith] at h
      intro hd
      simp only [strStartsWith] at hd
      have := isPrefixOf_head_eq hd h (by decide) (by decide)
      exact absurd this (by decide)
    · intro he; subst he; exact absurd h (by decide)
    · intro he; subst he; exact absurd h (by decide)
    · intro he; subst he; exact absurd h (by decide)
  · intro h
    unfold canAutoResolve
    rw [if_neg, if_neg, if_neg, if_neg, if_pos h]
    · simp only [strStartsWith] at h
      intro hd
      simp only [strStartsWith] at hd
      have := isPrefixOf_head_eq hd h (by decide) (by decide)
      exact absurd this (by decide)
    · intro he; subst he; exact absurd h (by decide)
    · intro he; subst he; exact absurd h (by decide)
    · intro he; subst he; exact absurd h (by decide)
  · intro h
    unfold canAutoResolve
    rw [if_neg, if_neg, if_neg, if_pos h]
    · intro he; subst he; exact absurd h (by decide)
    · intro he; subst he; exact absurd h (by decide)
    · intro he; subst he; exact absurd h (by decide)
  · intro hsuf hd hc hn
    unfold canAutoResolve
    rw [if_neg, if_neg, if_neg, if_neg (by rw [hd]; exact Bool.false_ne_true),
        if_neg (by rw [hc]; exact Bool.false_ne_true),
        if_neg (by rw [hn]; exact Bool.false_ne_true), if_pos]
    · rcases hsuf with h | h <;> simp [h]
    · intro he; subst he; exact absurd hsuf (by decide)
    · intro he; subst he; exact absurd hsuf (by decide)
    · intro he; subst he; exact absurd hsuf (by decide)
  · intro h1 h2 h3 hd hc hn hm1 hm2
    unfold canAutoResolve
    rw [if_neg h1, if_neg h2, if_neg h3,
        if_neg (by rw [hd]; exact Bool.false_ne_true),
        if_neg (by rw [hc]; exact Bool.false_ne_true),
        if_neg (by rw [hn]; exact Bool.false_ne_true),
        if_neg (by rw [hm1, hm2]; exact Bool.false_ne_true)]

/-!
## Version-bump resolver

Source: `tryResolvePackageJsonConflict`.  The function reads the
conflicted file, requires both conflict markers, extracts the "ours" and
"theirs" regions with the regexes
`/<<<<<<< .*?\n([\s\S]*?)=======\n/` and `/=======\n([\s\S]*?)>>>>>>> /`,
extracts a `"version": "<v>"` field from each region with
`/"version":\s*"([^"]+)"/`, strips the prerelease suffix with
(the replace of the regex `-.*$` by the empty string), compares with
`semver.gt`, rewrites the content by
deleting every conflict region (keeping the "theirs" capture) and
substituting the selected version, and writes the file.  Any failure
before the write returns `resolved: false` with a reason; `semver.gt`
throwing on an unparsable version is caught by the surrounding
try/catch.
-/

/-- Model of the prerelease strip (replace the regex `-.*$` by the empty
string): cut at the first hyphen. -/
def stripPrerelease (v : String) : String :=
  match splitFirstL ['-'] v.data with
  | some (a, _) => ⟨a⟩
  | none => v

/-- Parse a nonempty all-digit character list as a natural number. -/
def parseNatL (l : List Char) : Option Nat :=
  if l.isEmpty then none
  else if l.all Char.isDigit then
    some (l.foldl (fun n c => n * 10 + (c.toNat - 48)) 0)
  else none

/-- Model of the `semver` parse of a (prerelease-stripped)
`major.minor.patch` version string; `none` models `semver` throwing
`Invalid Version`. -/
def parseSemVer (v : String) : Option (Nat × Nat × Nat) :=
  match splitOnCharL '.' v.data with
  | [a, b, c] =>
    match parseNatL a, parseNatL b, parseNatL c with
    | some x, some y, some z => some (x, y, z)
    | _, _, _ => none
  | _ => none

/-- Model of `semver.gt` on parsed `major.minor.patch` triples:
lexicographic strictly-greater. -/
def semverGtB (a b : Nat × Nat × Nat) : Bool :=
  decide (b.1 < a.1) ||
    (decide (b.1 = a.1) &&
      (decide (b.2.1 < a.2.1) ||
        (decide (b.2.1 = a.2.1) && decide (b.2.2 < a.2.2))))

/-- The lexicographic strict order on version triples, as a `Prop`. -/
def svLt (a b : Nat × Nat × Nat) : Prop :=
  a.1 < b.1 ∨ (a.1 = b.1 ∧ (a.2.1 < b.2.1 ∨ (a.2.1 = b.2.1 ∧ a.2.2 < b.2.2)))

theorem semverGtB_iff (a b : Nat × Nat × Nat) :
    semverGtB a b = true ↔ svLt b a := by
  simp [semverGtB, svLt]

theorem semverGtB_self (a : Nat × Nat × Nat) : semverGtB a a = false := by
  simp [semverGtB]

/-- Model of the match `/<<<<<<< .*?\n([\s\S]*?)=======\n/` on the file
content: the capture is the text between the newline ending the
`<<<<<<< ` marker line and the first following `=======` line. -/
def matchOurs (content : String) : Option String := do
  let (_, a1) ← splitFirstL "<<<<<<< ".data content.data
  let (_, a2) ← splitFirstL ['\n'] a1
  let (ours, _) ← splitFirstL "=======\n".data a2
  pure ⟨ours⟩

/-- Model of the match `/=======\n([\s\S]*?)>>>>>>> /` on the file
content: the capture is the text between the first `=======` line and the
first following `>>>>>>> ` marker. -/
def matchTheirs (content : String) : Option String := do
  let (_, a1) ← splitFirstL "=======\n".data content.data
  let (theirs, _) ← splitFirstL ">>>>>>> ".data a1
  pure ⟨theirs⟩

/-- Model of the match `/"version":\s*"([^"]+)"/`: the nonempty text
inside the quotes after the first `"version":` key. -/
def matchVersion (s : String) : Option String :=
  match splitFirstL "\"version\":".data s.data with
  | none => none
  | some (_, after) =>
    match after.dropWhile isJsWhitespace with
    | '"' :: rest =>
      match splitFirstL ['"'] rest with
      | some (v, _) => if v.isEmpty then none else some ⟨v⟩
      | none => none
    | _ => none

/-- One match of the global replace regex
`/<<<<<<< .*?\n[\s\S]*?=======\n([\s\S]*?)>>>>>>> .*?\n/g`: returns the
text before the region, the kept "theirs" capture, and the text after the
region. -/
def matchConflictRegion (l : List Char) :
    Option (List Char × List Char × List Char) := do
  let (pre, a1) ← splitFirstL "<<<<<<< ".data l
  let (_, a2) ← splitFirstL ['\n'] a1
  let (_, a3) ← splitFirstL "=======\n".data a2
  let (keep, a4) ← splitFirstL ">>>>>>> ".data a3
  let (_, post) ← splitFirstL ['\n'] a4
  pure (pre, keep, post)

/-- Repeatedly replace conflict regions by their "theirs" capture,
scanning left to right (the replacement is never rescanned, matching the
semantics of a JS global replace).  Fuelled by the content length. -/
def removeRegionsAux : Nat → List Char → List Char
  | 0, l => l
  | n + 1, l =>
    match matchConflictRegion l with
    | none => l
    | some (pre, keep, post) => pre ++ keep ++ removeRegionsAux n post

/-- Model of
`content.replace(/<<<<<<< .*?\n[\s\S]*?=======\n([\s\S]*?)>>>>>>> .*?\n/g, '$1')`. -/
def removeConflictRegions (s : String) : String :=
  ⟨removeRegionsAux s.data.length s.data⟩

/-- Model of
`resolvedContent.replace(/"version":\s*"[^"]+"/, ‹"version": "higher"›)`:
rewrite the first version field with the selected version. -/
def replaceFirstVersion (s higher : String) : String :=
  match splitFirstL "\"version\":".data s.data with
  | none => s
  | some (pre, after) =>
    match after.dropWhile isJsWhitespace with
    | '"' :: rest =>
      match splitFirstL ['"'] rest with
      | some (v, post) =>
        if v.isEmpty then s
        else ⟨pre ++ "\"version\": \"".data ++ higher.data ++ ['"'] ++ post⟩
      | none => s
    | _ => s

/-- The full content rewrite performed by the resolver before writing:
strip conflict regions (keeping "theirs"), then substitute the selected
version. -/
def rewriteContent (content higher : String) : String :=
  replaceFirstVersion (removeConflictRegions content) higher

/-- Pure core of `tryResolvePackageJsonConflict`: given the file content,
either the rewritten content to be written (`.ok`), or the failure reason
(`.error`) — in which case the source returns `resolved: false` without
having written anything. -/
def tryResolvePackageJson (content : String) : Except String String :=
  if !(containsSub content "<<<<<<<") || !(containsSub content ">>>>>>>") then
    .error "Not a conflict file"
  else
    match matchOurs content, matchTheirs content with
    | some ours, some theirs =>
      match matchVersion ours, matchVersion theirs with
      | some ov, some tv =>
        match parseSemVer (stripPrerelease ov), parseSemVer (stripPrerelease tv) with
        | some po, some pt =>
          .ok (rewriteContent content (if semverGtB po pt then ov else tv))
        | _, _ => .error "Invalid Version"
      | _, _ => .error "Complex conflict - not just version"
    | _, _ => .error "Cannot parse conflict markers"

/-- C5: when both regions contain a parsable version field, the resolver
rewrites the file using the higher of the two versions, compared after
stripping the prerelease suffix; when "theirs" is strictly lower the
original "ours" string is kept, otherwise — including the tie after
stripping — the "theirs" string is selected (the deterministic tie
rule). -/
theorem version_bump_selects_higher (content ours theirs ov tv : String)
    (po pt : Nat × Nat × Nat)
    (hc1 : containsSub content "<<<<<<<" = true)
    (hc2 : containsSub content ">>>>>>>" = true)
    (ho : matchOurs content = some ours) (ht : matchTheirs content = some theirs)
    (hvo : matchVersion ours = some ov) (hvt : matchVersion theirs = some tv)
    (hpo : parseSemVer (stripPrerelease ov) = some po)
    (hpt : parseSemVer (stripPrerelease tv) = some pt) :
    tryResolvePackageJson content =
      .ok (rewriteContent content (if semverGtB po pt then ov else tv)) ∧
    (svLt pt po → (if semverGtB po pt then ov else tv) = ov) ∧
    (¬ svLt pt po → (if semverGtB po pt then ov else tv) = tv) ∧
    (po = pt → (if semverGtB po pt then ov else tv) = tv) := by
  refine ⟨?_, ?_, ?_, ?_⟩
  · simp [tryResolvePackageJson, hc1, hc2, ho, ht, hvo, hvt, hpo, hpt]
  · intro h
    rw [if_pos ((semverGtB_iff po pt).mpr h)]
  · intro h
    rw [if_neg (fun hgt => h ((semverGtB_iff po pt).mp hgt))]
  · intro he
    subst he
    rw [if_neg (by rw [semverGtB_self]; exact Bool.false_ne_true)]

/-- A concrete conflicted manifest: ours bumps to 1.2.0, theirs to
1.3.0. -/
def exampleConflictA : String :=
  "\x7b\n<<<<<<< HEAD\n  \"version\": \"1.2.0\",\n=======\n  \"version\": \"1.3.0\",\n>>>>>>> origin/main\n  \"name\": \"pkg\"\n\x7d\n"

/-- A concrete conflicted manifest: ours 1.3.0-beta.1, theirs 1.3.0; the
versions tie after the prerelease suffix is stripped. -/
def exampleConflictB : String :=
  "\x7b\n<<<<<<< HEAD\n  \"version\": \"1.3.0-beta.1\",\n=======\n  \"version\": \"1.3.0\",\n>>>>>>> origin/main\n  \"name\": \"pkg\"\n\x7d\n"

/-- C5 witness: on the 1.2.0-vs-1.3.0 manifest the resolver selects
`1.3.0`, and on the tied 1.3.0-beta.1-vs-1.3.0 manifest it
deterministically selects theirs, `1.3.0`. -/
theorem version_bump_selects_higher_witness :
    tryResolvePackageJson exampleConflictA =
      .ok (rewriteContent exampleConflictA "1.3.0") ∧
    tryResolvePackageJson exampleConflictB =
      .ok (rewriteContent exampleConflictB "1.3.0") := by
  constructor
  · have h := version_bump_selects_higher exampleConflictA
      "  \"version\": \"1.2.0\",\n" "  \"version\": \"1.3.0\",\n"
      "1.2.0" "1.3.0" (1, 2, 0) (1, 3, 0)
      (by decide) (by decide) (by decide) (by decide)
      (by decide) (by decide) (by decide) (by decide)
    have e : (if semverGtB (1, 2, 0) (1, 3, 0) then ("1.2.0" : String) else "1.3.0")
        = "1.3.0" := by decide
    rw [e] at h
    exact h.1
  · have h := version_bump_selects_higher exampleConflictB
      "  \"version\": \"1.3.0-beta.1\",\n" "  \"version\": \"1.3.0\",\n"
      "1.3.0-beta.1" "1.3.0" (1, 3, 0) (1, 3, 0)
      (by decide) (by decide) (by decide) (by decide)
      (by decide) (by decide) (by decide) (by decide)
    have e : (if semverGtB (1, 3, 0) (1, 3, 0) then ("1.3.0-beta.1" : String) else "1.3.0")
        = "1.3.0" := by decide
    rw [e] at h
    exact h.1

/-- C8 witness: the amended first-match rules applied at concrete inputs
from each family. -/
theorem canAutoResolve_first_match_rules_witness :
    canAutoResolve "node_modules/pkg/index.js" = (true, "take-theirs") ∧
    canAutoResolve "coverage/lcov.info" = (true, "take-theirs") ∧
    canAutoResolve "dist/bundle.js" = (true, "take-theirs-regenerate") ∧
    canAutoResolve "src/types.d.ts" = (true, "take-theirs-regenerate") ∧
    canAutoResolve "src/app.ts" = (false, "manual") :=
  ⟨(canAutoResolve_first_match_rules "node_modules/pkg/index.js").1 (by decide),
   (canAutoResolve_first_match_rules "coverage/lcov.info").2.1 (by decide),
   (canAutoResolve_first_match_rules "dist/bundle.js").2.2.1 (by decide),
   (canAutoResolve_first_match_rules "src/types.d.ts").2.2.2.1
     (Or.inr (by decide)) (by decide) (by decide) (by decide),
   (canAutoResolve_first_match_rules "src/app.ts").2.2.2.2
     (by decide) (by decide) (by decide) (by decide) (by decide) (by decide)
     (by decide) (by decide)⟩

/-!
## The strategy cascade controller

Source: `executePull` together with its helpers `getConflictedFiles`,
`autoResolveConflicts`, `resolveConflict`, `stashIfNeeded`,
`applyStashIfNeeded` and `regenerateLockFiles`.  The effectful
collaborators are modelled by a `GitEnv` record giving the result of each
call; a call the source does not guard with try/catch propagates its
`Except.error`, which is exactly how a thrown exception escapes the
engine.  The engine also returns the ordered list of commands it issued
(`Cmd` trace), so that ordering/call-count properties are statable.  The
`git diff --name-only --diff-filter=U` query is re-issued at several
points; its successive results are modelled by `conflictedStdout`
indexed by the number of earlier queries in the run.
-/

/-- The payload of a thrown collaborator error (`error.message`). -/
structure GitErr where
  msg : String
deriving DecidableEq

/-- Result of the status inspector (`getGitStatusSummary`). -/
structure StatusSummary where
  hasUncommittedChanges : Bool
  hasUnstagedFiles : Bool
  uncommittedCount : Nat
  unstagedCount : Nat
deriving DecidableEq

/-- The strategy tag of the outcome. -/
inductive Strategy where
  | fastForward
  | rebase
  | merge
  | failed
deriving DecidableEq

/-- The terminal outcome of one pull invocation (`PullResult`). -/
structure PullResult where
  success : Bool
  hadConflicts : Bool
  autoResolved : List String
  manualRequired : List String
  stashApplied : Bool
  strategy : Strategy
  message : String
deriving DecidableEq

/-- One command issued to a collaborator, in issue order. -/
inductive Cmd where
  | stashPush
  | fetch
  | ffMerge
  | rebase
  | rebaseContinue
  | rebaseAbort
  | merge
  | mergeCommit
  | stashPop
  | diffNameOnly
  | npmInstall
  | checkoutTheirs (f : String)
  | gitAdd (f : String)
  | readFile (f : String)
  | writeFile (f : String) (content : String)
deriving DecidableEq

/-- The behaviour of every collaborator call the engine can make during
one invocation.  An `Except.error` models the call throwing. -/
structure GitEnv where
  currentBranch : Except GitErr String
  statusSummary : Except GitErr StatusSummary
  stashPush : Except GitErr Unit
  fetch : Except GitErr Unit
  ffMerge : Except GitErr Unit
  rebase : Except GitErr Unit
  rebaseContinue : Except GitErr Unit
  rebaseAbort : Except GitErr Unit
  merge : Except GitErr Unit
  mergeCommit : Except GitErr Unit
  stashPop : Except GitErr Unit
  conflictedStdout : Nat → Except GitErr String
  checkoutTheirs : String → Except GitErr Unit
  gitAdd : String → Except GitErr Unit
  readFile : String → Except GitErr String
  writeFile : String → String → Except GitErr Unit

/-- Model of `stdout.trim().split('\n').filter(f => f.trim())`. -/
def parseConflictedFiles (stdout : String) : List String :=
  ((splitOnCharL '\n' (trimL stdout.data)).filter
    (fun l => !(trimL l).isEmpty)).map (fun l => ⟨l⟩)

/-- Model of `getConflictedFiles` (the `k`-th unmerged-files query of the
run): a failing query is caught and yields the empty list. -/
def getConflictedFiles (env : GitEnv) (k : Nat) : List Cmd × List String :=
  ([Cmd.diffNameOnly],
    match env.conflictedStdout k with
    | .ok out => parseConflictedFiles out
    | .error _ => [])

/-- Model of the `ConflictResolution` record. -/
structure ConflictResolution where
  file : String
  resolved : Bool
  strategy : String
  error : Option String := none
deriving DecidableEq

/-- Model of `resolveConflict`: perform the resolution action for one file
under the given strategy tag; every collaborator failure inside is caught
and reported as `resolved: false` with the error message. -/
def resolveConflict (env : GitEnv) (filepath strategy : String)
    (isDryRun : Bool) : List Cmd × ConflictResolution :=
  if isDryRun then ([], ⟨filepath, true, strategy, none⟩)
  else if strategy = "regenerate-lock" ∨ strategy = "take-theirs" ∨
      strategy = "take-theirs-regenerate" then
    match env.checkoutTheirs filepath with
    | .error e => ([Cmd.checkoutTheirs filepath],
                   ⟨filepath, false, strategy, some e.msg⟩)
    | .ok _ =>
      match env.gitAdd filepath with
      | .error e => ([Cmd.checkoutTheirs filepath, Cmd.gitAdd filepath],
                     ⟨filepath, false, strategy, some e.msg⟩)
      | .ok _ => ([Cmd.checkoutTheirs filepath, Cmd.gitAdd filepath],
                  ⟨filepath, true, strategy, none⟩)
  else if strategy = "version-bump" then
    match env.readFile filepath with
    | .error e => ([Cmd.readFile filepath], ⟨filepath, false, strategy, some e.msg⟩)
    | .ok content =>
      match tryResolvePackageJson content with
      | .error reason => ([Cmd.readFile filepath],
                          ⟨filepath, false, strategy, some reason⟩)
      | .ok newContent =>
        match env.writeFile filepath newContent with
        | .error e =>
          ([Cmd.readFile filepath, Cmd.writeFile filepath newContent],
           ⟨filepath, false, strategy, some e.msg⟩)
        | .ok _ =>
          match env.gitAdd filepath with
          | .error e =>
            ([Cmd.readFile filepath, Cmd.writeFile filepath newContent,
              Cmd.gitAdd filepath],
             ⟨filepath, false, strategy, some e.msg⟩)
          | .ok _ =>
            ([Cmd.readFile filepath, Cmd.writeFile filepath newContent,
              Cmd.gitAdd filepath],
             ⟨filepath, true, strategy, none⟩)
  else ([], ⟨filepath, false, strategy, some "Unknown resolution strategy"⟩)

/-- The per-file loop of `autoResolveConflicts`: package-manifest files
are always routed to `version-bump`; classifiable files use their
classified strategy; everything else goes to the manual list.  Returns
`(trace, resolved files, manual files)` in encounter order. -/
def autoResolveList (env : GitEnv) (isDryRun : Bool) :
    List String → List Cmd × List String × List String
  | [] => ([], [], [])
  | f :: rest =>
    let tail := autoResolveList env isDryRun rest
    if f = "package.json" ∨ strEndsWith f "/package.json" then
      let r := resolveConflict env f "version-bump" isDryRun
      (r.1 ++ tail.1,
       if r.2.resolved then f :: tail.2.1 else tail.2.1,
       if r.2.resolved then tail.2.2 else f :: tail.2.2)
    else if (canAutoResolve f).1 then
      let r := resolveConflict env f (canAutoResolve f).2 isDryRun
      (r.1 ++ tail.1,
       if r.2.resolved then f :: tail.2.1 else tail.2.1,
       if r.2.resolved then tail.2.2 else f :: tail.2.2)
    else (tail.1, tail.2.1, f :: tail.2.2)

/-- Model of `autoResolveConflicts`: re-queries the unmerged set (query
index `k`), then resolves file by file. -/
def autoResolveConflicts (env : GitEnv) (k : Nat) (isDryRun : Bool) :
    List Cmd × List String × List String :=
  let q := getConflictedFiles env k
  let r := autoResolveList env isDryRun q.2
  (q.1 ++ r.1, r.2.1, r.2.2)

/-- Model of `stashIfNeeded`: neither the status query nor the stash push
is guarded by try/catch in the source, so their failures propagate. -/
def stashIfNeeded (env : GitEnv) (isDryRun : Bool) :
    List Cmd × Except GitErr Bool :=
  match env.statusSummary with
  | .error e => ([], .error e)
  | .ok st =>
    if st.hasUncommittedChanges || st.hasUnstagedFiles then
      if isDryRun then ([], .ok true)
      else
        match env.stashPush with
        | .error e => ([Cmd.stashPush], .error e)
        | .ok _ => ([Cmd.stashPush], .ok true)
    else ([], .ok false)

/-- Model of `applyStashIfNeeded`: a pop conflict is caught, the stash is
left in place and `false` is returned. -/
def applyStashIfNeeded (env : GitEnv) (didStash : Bool) (isDryRun : Bool) :
    List Cmd × Bool :=
  if !didStash then ([], false)
  else if isDryRun then ([], true)
  else
    match env.stashPop with
    | .ok _ => ([Cmd.stashPop], true)
    | .error _ => ([Cmd.stashPop], false)

/-- Model of `regenerateLockFiles`: issue the package-manager install when
a lock file was auto-resolved; its failure is caught and ignored. -/
def regenerateLockFiles (resolvedFiles : List String) (isDryRun : Bool) :
    List Cmd :=
  if resolvedFiles.any
      (fun f => f = "package-lock.json" || strEndsWith f "/package-lock.json") then
    if isDryRun then [] else [Cmd.npmInstall]
  else []

/-- The terminal result of the final-failure exit of `executePull`. -/
def finalFailure : PullResult :=
  ⟨false, false, [], [], false, Strategy.failed,
   "Pull failed - unable to merge or rebase"⟩

/-- Step 6 of `executePull` (the plain-merge fallback), reached after the
rebase strategy is exhausted; `k` is the index of the next unmerged-files
query.  This region of the source catches every collaborator failure, so
it always produces a `PullResult`. -/
def mergeStep (env : GitEnv) (k : Nat) (didStash : Bool) :
    List Cmd × PullResult :=
  match env.merge with
  | .ok _ =>
    ([Cmd.merge] ++ (applyStashIfNeeded env didStash false).1,
     ⟨true, false, [], [], didStash, Strategy.merge, "Merge successful"⟩)
  | .error _ =>
    let q := getConflictedFiles env k
    if 0 < q.2.length then
      let ar := autoResolveConflicts env (k + 1) false
      if ar.2.2.length = 0 then
        match env.mergeCommit with
        | .ok _ =>
          ([Cmd.merge] ++ q.1 ++ ar.1 ++ [Cmd.mergeCommit] ++
             regenerateLockFiles ar.2.1 false ++
             (applyStashIfNeeded env didStash false).1,
           ⟨true, true, ar.2.1, [], didStash, Strategy.merge,
            "Merge successful with " ++ toString ar.2.1.length ++
              " auto-resolved conflicts"⟩)
        | .error _ =>
          ([Cmd.merge] ++ q.1 ++ ar.1 ++ [Cmd.mergeCommit], finalFailure)
      else
        ([Cmd.merge] ++ q.1 ++ ar.1,
         ⟨false, true, ar.2.1, ar.2.2, false, Strategy.merge,
          "Merge paused: " ++ toString ar.2.2.length ++
            " files need manual conflict resolution"⟩)
    else
      ([Cmd.merge] ++ q.1, finalFailure)

/-- Model of `executePull`: the full strategy cascade.  Returns the issued
command trace and either the `PullResult` or the error of an unguarded
collaborator call (`getCurrentBranch`, the status query, or the stash
push — the only calls the source leaves outside try/catch). -/
def executePull (env : GitEnv) (remote : String) (branch : Option String)
    (isDryRun : Bool) : List Cmd × Except GitErr PullResult :=
  match env.currentBranch with
  | .error e => ([], .error e)
  | .ok currentBranch =>
    let _targetBranch := branch.getD currentBranch
    let s := stashIfNeeded env isDryRun
    match s.2 with
    | .error e => (s.1, .error e)
    | .ok didStash =>
      if isDryRun then
        (s.1, .ok finalFailure)
      else
        match env.fetch with
        | .error e =>
          (s.1 ++ [Cmd.fetch] ++
             (if didStash then (applyStashIfNeeded env true false).1 else []),
           .ok ⟨false, false, [], [], didStash, Strategy.failed,
                "Fetch failed: " ++ e.msg⟩)
        | .ok _ =>
          match env.ffMerge with
          | .ok _ =>
            (s.1 ++ [Cmd.fetch, Cmd.ffMerge] ++
               (applyStashIfNeeded env didStash false).1,
             .ok ⟨true, false, [], [], didStash, Strategy.fastForward,
                  "Fast-forward merge successful"⟩)
          | .error _ =>
            match env.rebase with
            | .ok _ =>
              (s.1 ++ [Cmd.fetch, Cmd.ffMerge, Cmd.rebase] ++
                 (applyStashIfNeeded env didStash false).1,
               .ok ⟨true, false, [], [], didStash, Strategy.rebase,
                    "Rebase successful"⟩)
            | .error _ =>
              let q := getConflictedFiles env 0
              if 0 < q.2.length then
                let ar := autoResolveConflicts env 1 false
                if ar.2.2.length = 0 then
                  match env.rebaseContinue with
                  | .ok _ =>
                    (s.1 ++ [Cmd.fetch, Cmd.ffMerge, Cmd.rebase] ++ q.1 ++
                       ar.1 ++ [Cmd.rebaseContinue] ++
                       regenerateLockFiles ar.2.1 false ++
                       (applyStashIfNeeded env didStash false).1,
                     .ok ⟨true, true, ar.2.1, [], didStash, Strategy.rebase,
                          "Rebase successful with " ++ toString ar.2.1.length ++
                            " auto-resolved conflicts"⟩)
                  | .error _ =>
                    let m := mergeStep env 2 didStash
                    (s.1 ++ [Cmd.fetch, Cmd.ffMerge, Cmd.rebase] ++ q.1 ++
                       ar.1 ++ [Cmd.rebaseContinue] ++ m.1,
                     .ok m.2)
                else
                  (s.1 ++ [Cmd.fetch, Cmd.ffMerge, Cmd.rebase] ++ q.1 ++ ar.1,
                   .ok ⟨false, true, ar.2.1, ar.2.2, false, Strategy.rebase,
                        "Rebase paused: " ++ toString ar.2.2.length ++
                          " files need manual conflict resolution"⟩)
              else
                let m := mergeStep env 1 didStash
                (s.1 ++ [Cmd.fetch, Cmd.ffMerge, Cmd.rebase] ++ q.1 ++
                   [Cmd.rebaseAbort] ++ m.1,
                 .ok m.2)

/-!
## Claim theorems over the engine
-/

/-- A baseline environment in which every collaborator call succeeds and
the working tree is clean. -/
def envBase : GitEnv :=
  { currentBranch := .ok "main"
    statusSummary := .ok ⟨false, false, 0, 0⟩
    stashPush := .ok ()
    fetch := .ok ()
    ffMerge := .ok ()
    rebase := .ok ()
    rebaseContinue := .ok ()
    rebaseAbort := .ok ()
    merge := .ok ()
    mergeCommit := .ok ()
    stashPop := .ok ()
    conflictedStdout := fun _ => .ok ""
    checkoutTheirs := fun _ => .ok ()
    gitAdd := fun _ => .ok ()
    readFile := fun _ => .ok ""
    writeFile := fun _ _ => .ok () }

/-- C9: in dry-run mode every strategy attempt is skipped — no command at
all is issued — and, whenever the current-branch and status queries
answer, the outcome is the final-failure result: `success = false`,
`strategy = failed`, `hadConflicts = false`, message
`Pull failed - unable to merge or rebase`, for every configuration and
every repository state. -/
theorem executePull_dryRun_failed (env : GitEnv) (remote : String)
    (branch : Option String) (cb : String) (st : StatusSummary)
    (hcb : env.currentBranch = .ok cb) (hst : env.statusSummary = .ok st) :
    executePull env remote branch true =
      ([], .ok ⟨false, false, [], [], false, Strategy.failed,
                "Pull failed - unable to merge or rebase"⟩) := by
  cases hcond : (st.hasUncommittedChanges || st.hasUnstagedFiles) with
  | false => simp [executePull, stashIfNeeded, hcb, hst, hcond, finalFailure]
  | true => simp [executePull, stashIfNeeded, hcb, hst, hcond, finalFailure]

/-- C9 witness: the dry-run theorem applied to the concrete baseline
environment. -/
theorem executePull_dryRun_failed_witness :
    executePull envBase "origin" none true =
      ([], .ok ⟨false, false, [], [], false, Strategy.failed,
                "Pull failed - unable to merge or rebase"⟩) :=
  executePull_dryRun_failed envBase "origin" none "main" ⟨false, false, 0, 0⟩
    rfl rfl

/-- C10: when the fetch fails after a stash was created, the outcome sets
`stashApplied` to `didStash` (here `true`) no matter how the stash-pop
attempt went; in the execution where the pop reports conflicts the stash
was in fact not applied (`applyStashIfNeeded` returned `false`), yet the
outcome still reports `stashApplied = true`. -/
theorem executePull_fetchFail_stashApplied (env : GitEnv) (remote : String)
    (branch : Option String) (cb : String) (st : StatusSummary) (e e' : GitErr)
    (hcb : env.currentBranch = .ok cb) (hst : env.statusSummary = .ok st)
    (hch : (st.hasUncommittedChanges || st.hasUnstagedFiles) = true)
    (hpush : env.stashPush = .ok ()) (hfetch : env.fetch = .error e)
    (hpop : env.stashPop = .error e') :
    executePull env remote branch false =
      ([Cmd.stashPush, Cmd.fetch, Cmd.stashPop],
       .ok ⟨false, false, [], [], true, Strategy.failed,
            "Fetch failed: " ++ e.msg⟩) ∧
    applyStashIfNeeded env true false = ([Cmd.stashPop], false) := by
  constructor
  · simp only [executePull, stashIfNeeded, applyStashIfNeeded, hcb, hst, hch,
      hpush, hfetch, hpop]
    rfl
  · simp only [applyStashIfNeeded, hpop]
    rfl

/-- An environment with local changes, a failing fetch and a conflicting
stash pop. -/
def envFetchFail : GitEnv :=
  { envBase with
      statusSummary := .ok ⟨true, false, 1, 0⟩
      fetch := .error ⟨"network down"⟩
      stashPop := .error ⟨"stash pop conflict"⟩ }

/-- C10 witness: the fetch-failure theorem applied to the concrete
environment in which the stash pop conflicts. -/
theorem executePull_fetchFail_stashApplied_witness :
    executePull envFetchFail "origin" none false =
      ([Cmd.stashPush, Cmd.fetch, Cmd.stashPop],
       .ok ⟨false, false, [], [], true, Strategy.failed,
            "Fetch failed: network down"⟩) ∧
    applyStashIfNeeded envFetchFail true false = ([Cmd.stashPop], false) :=
  executePull_fetchFail_stashApplied envFetchFail "origin" none "main"
    ⟨true, false, 1, 0⟩ ⟨"network down"⟩ ⟨"stash pop conflict"⟩
    rfl rfl rfl rfl rfl rfl

/-- An environment in which the working tree is dirty and the stash push
itself throws. -/
def envStashThrow : GitEnv :=
  { envBase with
      statusSummary := .ok ⟨true, false, 1, 0⟩
      stashPush := .error ⟨"stash push failed"⟩ }

/-- C2 counterexample: the engine does NOT always return a `PullOutcome` —
the stash push is not guarded by any try/catch in `executePull`
(`stashIfNeeded` awaits `runSecure('git', ['stash', 'push', ...])`
bare), so its exception propagates out of the engine. -/
theorem executePull_throws_cex :
    (executePull envStashThrow "origin" none false).2 =
      .error ⟨"stash push failed"⟩ := by
  rfl

/-- Whether an `Except` result is a success. -/
def exceptIsOk : Except GitErr PullResult → Bool
  | .ok _ => true
  | .error _ => false

theorem executePull_isOk (env : GitEnv) (remote : String)
    (branch : Option String) (isDryRun : Bool) (cb : String)
    (st : StatusSummary) (hcb : env.currentBranch = .ok cb)
    (hst : env.statusSummary = .ok st) (hpush : env.stashPush = .ok ()) :
    exceptIsOk (executePull env remote branch isDryRun).2 = true := by
  have hs : ∃ ds, (stashIfNeeded env isDryRun).2 = Except.ok ds := by
    simp only [stashIfNeeded, hst]
    split
    · split
      · exact ⟨true, rfl⟩
      · rw [hpush]
        exact ⟨true, rfl⟩
    · exact ⟨false, rfl⟩
  obtain ⟨ds, hds⟩ := hs
  simp only [executePull, hcb, hds]
  split
  · rfl
  · split
    · rfl
    · split
      · rfl
      · split
        · rfl
        · split
          · split
            · split
              · rfl
              · rfl
            · rfl
          · rfl

/-- C2 (amended): for every behaviour of the fetch, merge, rebase,
continue, commit, conflict-query, resolution and stash-pop calls —
including any of them throwing — the engine returns a `PullOutcome`;
but this holds only once the three unguarded calls (current-branch
query, status query, stash push) succeed, since their exceptions
propagate, and the top-level `execute` wrapper re-throws after
logging. -/
theorem executePull_total_when_guarded (env : GitEnv) (remote : String)
    (branch : Option String) (isDryRun : Bool) (cb : String)
    (st : StatusSummary) (hcb : env.currentBranch = .ok cb)
    (hst : env.statusSummary = .ok st) (hpush : env.stashPush = .ok ()) :
    ∃ res : PullResult,
      (executePull env remote branch isDryRun).2 = .ok res := by
  have h := executePull_isOk env remote branch isDryRun cb st hcb hst hpush
  cases hx : (executePull env remote branch isDryRun).2 with
  | error e => rw [hx] at h; exact absurd h (by simp [exceptIsOk])
  | ok r => exact ⟨r, rfl⟩

/-- C2 witness: totality applied at a concrete environment in which every
strategy call throws, yet an outcome is returned. -/
theorem executePull_total_when_guarded_witness :
    ∃ res : PullResult,
      (executePull
        { envBase with
            fetch := .ok ()
            ffMerge := .error ⟨"no ff"⟩
            rebase := .error ⟨"rebase failed"⟩
            rebaseContinue := .error ⟨"continue failed"⟩
            merge := .error ⟨"merge failed"⟩
            mergeCommit := .error ⟨"commit failed"⟩
            stashPop := .error ⟨"pop failed"⟩ } "origin" none false).2 = .ok res :=
  executePull_total_when_guarded _ "origin" none false "main"
    ⟨false, false, 0, 0⟩ rfl rfl rfl

/-- C6: version-bump resolution is atomic on failure — whenever
extraction from the file content fails at any step (missing conflict
markers, unparsable marker-delimited regions, a missing or unparsable
version field), the resolution reports `resolved = false` with the
descriptive reason, and no write command is ever issued for any file or
content: the on-disk file is untouched. -/
theorem version_bump_atomic_on_failure (env : GitEnv) (f content reason : String)
    (hread : env.readFile f = .ok content)
    (hfail : tryResolvePackageJson content = .error reason) :
    (resolveConflict env f "version-bump" false).2.resolved = false ∧
    (resolveConflict env f "version-bump" false).2.error = some reason ∧
    ∀ p c, Cmd.writeFile p c ∉ (resolveConflict env f "version-bump" false).1 := by
  have hdef : resolveConflict env f "version-bump" false =
      ([Cmd.readFile f], ⟨f, false, "version-bump", some reason⟩) := by
    simp only [resolveConflict, hread, hfail]
    simp
  rw [hdef]
  refine ⟨rfl, rfl, ?_⟩
  intro p c
  simp

/-- C6 witness: atomicity applied at a concrete content with no conflict
markers (the `Not a conflict file` failure). -/
theorem version_bump_atomic_on_failure_witness :
    (resolveConflict envBase "package.json" "version-bump" false).2.resolved = false ∧
    (resolveConflict envBase "package.json" "version-bump" false).2.error =
      some "Not a conflict file" ∧
    ∀ p c, Cmd.writeFile p c ∉
      (resolveConflict envBase "package.json" "version-bump" false).1 :=
  version_bump_atomic_on_failure envBase "package.json" "" "Not a conflict file"
    rfl rfl

theorem mergeStep_manual_invariant (env : GitEnv) (k : Nat) (ds : Bool)
    (r : PullResult) (h : (mergeStep env k ds).2 = r)
    (hm : r.manualRequired ≠ []) :
    r.success = false ∧ r.stashApplied = false := by
  subst h
  rcases hmg : env.merge with e | u
  · by_cases hq : 0 < (getConflictedFiles env k).2.length
    · by_cases har : (autoResolveConflicts env (k + 1) false).2.2.length = 0
      · rcases hmc : env.mergeCommit with e2 | u2
        · simp_all [mergeStep, finalFailure]
        · simp_all [mergeStep, finalFailure]
      · simp_all [mergeStep, finalFailure]
    · simp_all [mergeStep, finalFailure]
  · simp_all [mergeStep, finalFailure]

/-- C1: in every terminal outcome the engine can produce — across every
cascade branch, every collaborator behaviour and both pause points — a
non-empty `manualRequired` implies `success = false` and
`stashApplied = false`: the stash is never replayed onto a repository
left in a paused conflict state. -/
theorem pull_manualRequired_invariant (env : GitEnv) (remote : String)
    (branch : Option String) (isDryRun : Bool) (res : PullResult)
    (h : (executePull env remote branch isDryRun).2 = .ok res)
    (hm : res.manualRequired ≠ []) :
    res.success = false ∧ res.stashApplied = false := by
  rcases hcb : env.currentBranch with e | cb
  · simp [executePull, hcb] at h
  · rcases hsv : (stashIfNeeded env isDryRun).2 with es | ds
    · simp [executePull, hcb, hsv] at h
    · cases isDryRun with
      | true =>
        simp [executePull, hcb, hsv] at h
        subst h
        simp [finalFailure] at hm
      | false =>
        rcases hf : env.fetch with ef | uf
        · simp [executePull, hcb, hsv, hf] at h
          subst h
          simp at hm
        · rcases hff : env.ffMerge with eff | uff
          · rcases hrb : env.rebase with erb | urb
            · by_cases hq : 0 < (getConflictedFiles env 0).2.length
              · by_cases har : (autoResolveConflicts env 1 false).2.2.length = 0
                · rcases hrc : env.rebaseContinue with erc | urc
                  · simp [executePull, hcb, hsv, hf, hff, hrb, hq, har, hrc] at h
                    exact mergeStep_manual_invariant env 2 ds res h hm
                  · simp [executePull, hcb, hsv, hf, hff, hrb, hq, har, hrc] at h
                    subst h
                    simp at hm
                · simp [executePull, hcb, hsv, hf, hff, hrb, hq, har] at h
                  subst h
                  exact ⟨rfl, rfl⟩
              · simp [executePull, hcb, hsv, hf, hff, hrb, hq] at h
                exact mergeStep_manual_invariant env 1 ds res h hm
            · simp [executePull, hcb, hsv, hf, hff, hrb] at h
              subst h
              simp at hm
          · simp [executePull, hcb, hsv, hf, hff] at h
            subst h
            simp at hm

/-- An environment whose rebase pauses on an unclassifiable conflict in
`src/app.ts`. -/
def envManualConflict : GitEnv :=
  { envBase with
      ffMerge := .error ⟨"not fast-forwardable"⟩
      rebase := .error ⟨"rebase conflicts"⟩
      conflictedStdout := fun _ => .ok "src/app.ts\n" }

/-- C1 witness: the invariant applied at the concrete paused-rebase
outcome produced by a conflict in `src/app.ts`. -/
theorem pull_manualRequired_invariant_witness :
    (⟨false, true, [], ["src/app.ts"], false, Strategy.rebase,
      "Rebase paused: 1 files need manual conflict resolution"⟩ :
        PullResult).success = false ∧
    (⟨false, true, [], ["src/app.ts"], false, Strategy.rebase,
      "Rebase paused: 1 files need manual conflict resolution"⟩ :
        PullResult).stashApplied = false :=
  pull_manualRequired_invariant envManualConflict "origin" none false
    ⟨false, true, [], ["src/app.ts"], false, Strategy.rebase,
     "Rebase paused: 1 files need manual conflict resolution"⟩
    rfl (by simp)

theorem mergeStep_issues_merge (env : GitEnv) (k : Nat) (ds : Bool) :
    Cmd.merge ∈ (mergeStep env k ds).1 := by
  rcases hmg : env.merge with e | u
  · by_cases hq : 0 < (getConflictedFiles env k).2.length
    · by_cases har : (autoResolveConflicts env (k + 1) false).2.2.length = 0
      · rcases hmc : env.mergeCommit with e2 | u2 <;>
          simp [mergeStep, hmg, hq, har, hmc]
      · simp [mergeStep, hmg, hq, har]
    · simp [mergeStep, hmg, hq]
  · simp [mergeStep, hmg]

/-- An environment in which the rebase hits an auto-resolvable conflict,
`rebase --continue` then fails, and the subsequent plain merge
succeeds. -/
def envContinueFail : GitEnv :=
  { envBase with
      ffMerge := .error ⟨"not fast-forwardable"⟩
      rebase := .error ⟨"rebase conflicts"⟩
      conflictedStdout := fun _ => .ok "package-lock.json\n"
      rebaseContinue := .error ⟨"continue failed"⟩ }

/-- C3 counterexample: when `rebase --continue` fails after full
auto-resolution, the engine does NOT go directly to the final-failure
state — it falls through to step 6 and issues the plain merge, which here
succeeds: the outcome has `strategy = merge`, `success = true`, and the
merge command is in the issued trace. -/
theorem rebase_continue_failure_cex :
    (executePull envContinueFail "origin" none false).2 =
      .ok ⟨true, false, [], [], false, Strategy.merge, "Merge successful"⟩ ∧
    Cmd.merge ∈ (executePull envContinueFail "origin" none false).1 := by
  constructor
  · rfl
  · decide

/-- C3 (amended): in the rebase branch, when all conflicts were
auto-resolved but `rebase --continue` fails, the engine falls through to
the plain-merge fallback (step 6): the merge command is issued, and the
outcome is whatever the merge fallback produces (final failure only when
that path also fails). -/
theorem rebase_continue_failure_falls_to_merge (env : GitEnv)
    (remote : String) (branch : Option String) (cb : String) (ds : Bool)
    (eff erb erc : GitErr)
    (hcb : env.currentBranch = .ok cb)
    (hsv : (stashIfNeeded env false).2 = .ok ds)
    (hf : env.fetch = .ok ())
    (hff : env.ffMerge = .error eff) (hrb : env.rebase = .error erb)
    (hq : 0 < (getConflictedFiles env 0).2.length)
    (har : (autoResolveConflicts env 1 false).2.2.length = 0)
    (hrc : env.rebaseContinue = .error erc) :
    Cmd.merge ∈ (executePull env remote branch false).1 ∧
    (executePull env remote branch false).2 = .ok (mergeStep env 2 ds).2 := by
  constructor
  · have hmm := mergeStep_issues_merge env 2 ds
    simp [executePull, hcb, hsv, hf, hff, hrb, hq, har, hrc, List.mem_append,
      List.mem_cons]
    tauto
  · simp [executePull, hcb, hsv, hf, hff, hrb, hq, har, hrc]

/-- C3 witness: the amended fall-through behaviour applied at the concrete
environment whose continue step fails. -/
theorem rebase_continue_failure_falls_to_merge_witness :
    Cmd.merge ∈ (executePull envContinueFail "origin" none false).1 ∧
    (executePull envContinueFail "origin" none false).2 =
      .ok (mergeStep envContinueFail 2 false).2 :=
  rebase_continue_failure_falls_to_merge envContinueFail "origin" none "main"
    false ⟨"not fast-forwardable"⟩ ⟨"rebase conflicts"⟩ ⟨"continue failed"⟩
    rfl rfl rfl rfl rfl (by decide) (by decide) rfl

/-- The three cascade-strategy commands. -/
def isStrategyCmd : Cmd → Bool
  | Cmd.ffMerge => true
  | Cmd.rebase => true
  | Cmd.merge => true
  | _ => false

theorem resolveConflict_no_strategy (env : GitEnv) (f st : String) (d : Bool) :
    ((resolveConflict env f st d).1).filter isStrategyCmd = [] := by
  unfold resolveConflict
  repeat' split
  all_goals rfl

theorem autoResolveList_no_strategy (env : GitEnv) (d : Bool) :
    ∀ fs, ((autoResolveList env d fs).1).filter isStrategyCmd = [] := by
  intro fs
  induction fs with
  | nil => rfl
  | cons f rest ih =>
    unfold autoResolveList
    split
    · simp [List.filter_append, resolveConflict_no_strategy, ih]
    · split
      · simp [List.filter_append, resolveConflict_no_strategy, ih]
      · simpa using ih

theorem autoResolveList_no_strategy_mem (env : GitEnv) (d : Bool)
    (fs : List String) :
    ∀ a ∈ (autoResolveList env d fs).1, isStrategyCmd a = false := by
  have h := autoResolveList_no_strategy env d fs
  rw [List.filter_eq_nil_iff] at h
  intro a ha
  simpa using h a ha

theorem getConflictedFiles_fst (env : GitEnv) (k : Nat) :
    (getConflictedFiles env k).1 = [Cmd.diffNameOnly] := rfl

theorem autoResolveConflicts_no_strategy (env : GitEnv) (k : Nat) (d : Bool) :
    ((autoResolveConflicts env k d).1).filter isStrategyCmd = [] := by
  unfold autoResolveConflicts
  simp [List.filter_append, autoResolveList_no_strategy, getConflictedFiles_fst,
    List.filter, isStrategyCmd]

theorem applyStash_no_strategy (env : GitEnv) (ds d : Bool) :
    ((applyStashIfNeeded env ds d).1).filter isStrategyCmd = [] := by
  unfold applyStashIfNeeded
  repeat' split
  all_goals rfl

theorem stashIfNeeded_no_strategy (env : GitEnv) (d : Bool) :
    ((stashIfNeeded env d).1).filter isStrategyCmd = [] := by
  unfold stashIfNeeded
  repeat' split
  all_goals rfl

theorem regenerateLockFiles_no_strategy (fs : List String) (d : Bool) :
    (regenerateLockFiles fs d).filter isStrategyCmd = [] := by
  unfold regenerateLockFiles
  repeat' split
  all_goals rfl

theorem mergeStep_filter (env : GitEnv) (k : Nat) (ds : Bool) :
    ((mergeStep env k ds).1).filter isStrategyCmd = [Cmd.merge] := by
  rcases hmg : env.merge with e | u
  · by_cases hq : 0 < (getConflictedFiles env k).2.length
    · by_cases har : (autoResolveConflicts env (k + 1) false).2.2.length = 0
      · rcases hmc : env.mergeCommit with e2 | u2 <;>
          (simp [mergeStep, hmg, hq, har, hmc, List.filter_append, List.filter,
            isStrategyCmd, autoResolveConflicts_no_strategy,
            applyStash_no_strategy, regenerateLockFiles_no_strategy,
            getConflictedFiles_fst];
           all_goals exact autoResolveList_no_strategy_mem env false _)
      · simp [mergeStep, hmg, hq, har, List.filter_append, List.filter,
          isStrategyCmd, autoResolveConflicts_no_strategy, getConflictedFiles_fst]
        all_goals exact autoResolveList_no_strategy_mem env false _
    · simp [mergeStep, hmg, hq, List.filter_append, List.filter, isStrategyCmd,
        getConflictedFiles_fst]
  · simp [mergeStep, hmg, List.filter_append, List.filter, isStrategyCmd,
      applyStash_no_strategy]

theorem executePull_strategy_filter (env : GitEnv) (remote : String)
    (branch : Option String) (isDryRun : Bool) :
    ((executePull env remote branch isDryRun).1).filter isStrategyCmd = [] ∨
    ((executePull env remote branch isDryRun).1).filter isStrategyCmd =
      [Cmd.ffMerge] ∨
    ((executePull env remote branch isDryRun).1).filter isStrategyCmd =
      [Cmd.ffMerge, Cmd.rebase] ∨
    ((executePull env remote branch isDryRun).1).filter isStrategyCmd =
      [Cmd.ffMerge, Cmd.rebase, Cmd.merge] := by
  rcases hcb : env.currentBranch with e | cb
  · left; simp [executePull, hcb]
  · rcases hsv : (stashIfNeeded env isDryRun).2 with es | ds
    · left; simp [executePull, hcb, hsv, stashIfNeeded_no_strategy]
    · cases isDryRun with
      | true => left; simp [executePull, hcb, hsv, stashIfNeeded_no_strategy]
      | false =>
        rcases hf : env.fetch with ef | uf
        · left
          cases ds <;>
            simp [executePull, hcb, hsv, hf, List.filter_append, List.filter,
              isStrategyCmd, stashIfNeeded_no_strategy, applyStash_no_strategy]
        · rcases hff : env.ffMerge with eff | uff
          · rcases hrb : env.rebase with erb | urb
            · by_cases hq : 0 < (getConflictedFiles env 0).2.length
              · by_cases har : (autoResolveConflicts env 1 false).2.2.length = 0
                · rcases hrc : env.rebaseContinue with erc | urc
                  · right; right; right
                    simp [executePull, hcb, hsv, hf, hff, hrb, hq, har, hrc,
                      List.filter_append, List.filter, isStrategyCmd,
                      stashIfNeeded_no_strategy, autoResolveConflicts_no_strategy,
                      getConflictedFiles_fst, mergeStep_filter]
                    all_goals exact autoResolveList_no_strategy_mem env false _
                  · right; right; left
                    simp [executePull, hcb, hsv, hf, hff, hrb, hq, har, hrc,
                      List.filter_append, List.filter, isStrategyCmd,
                      stashIfNeeded_no_strategy, autoResolveConflicts_no_strategy,
                      getConflictedFiles_fst, applyStash_no_strategy,
                      regenerateLockFiles_no_strategy]
                    all_goals exact autoResolveList_no_strategy_mem env false _
                · right; right; left
                  simp [executePull, hcb, hsv, hf, hff, hrb, hq, har,
                    List.filter_append, List.filter, isStrategyCmd,
                    stashIfNeeded_no_strategy, autoResolveConflicts_no_strategy,
                    getConflictedFiles_fst]
                  all_goals exact autoResolveList_no_strategy_mem env false _
              · right; right; right
                simp [executePull, hcb, hsv, hf, hff, hrb, hq,
                  List.filter_append, List.filter, isStrategyCmd,
                  stashIfNeeded_no_strategy, getConflictedFiles_fst,
                  mergeStep_filter]
            · right; right; left
              simp [executePull, hcb, hsv, hf, hff, hrb, List.filter_append,
                List.filter, isStrategyCmd, stashIfNeeded_no_strategy,
                applyStash_no_strategy]
          · right; left
            simp [executePull, hcb, hsv, hf, hff, List.filter_append,
              List.filter, isStrategyCmd, stashIfNeeded_no_strategy,
              applyStash_no_strategy]

theorem executePull_ff_success_filter (env : GitEnv) (remote : String)
    (branch : Option String) (isDryRun : Bool) (hffOk : env.ffMerge = .ok ()) :
    ((executePull env remote branch isDryRun).1).filter isStrategyCmd = [] ∨
    ((executePull env remote branch isDryRun).1).filter isStrategyCmd =
      [Cmd.ffMerge] := by
  rcases hcb : env.currentBranch with e | cb
  · left; simp [executePull, hcb]
  · rcases hsv : (stashIfNeeded env isDryRun).2 with es | ds
    · left; simp [executePull, hcb, hsv, stashIfNeeded_no_strategy]
    · cases isDryRun with
      | true => left; simp [executePull, hcb, hsv, stashIfNeeded_no_strategy]
      | false =>
        rcases hf : env.fetch with ef | uf
        · left
          cases ds <;>
            simp [executePull, hcb, hsv, hf, List.filter_append, List.filter,
              isStrategyCmd, stashIfNeeded_no_strategy, applyStash_no_strategy]
        · right
          simp [executePull, hcb, hsv, hf, hffOk, List.filter_append,
            List.filter, isStrategyCmd, stashIfNeeded_no_strategy,
            applyStash_no_strategy]

/-- C7: the cascade ordering is fixed.  In every invocation the sequence
of strategy commands actually issued is a prefix of
fast-forward, rebase, merge — fast-forward always precedes rebase, and
rebase always precedes merge; and whenever the fast-forward attempt
succeeds, neither a rebase nor a merge command is ever issued. -/
theorem cascade_order_fixed (env : GitEnv) (remote : String)
    (branch : Option String) (isDryRun : Bool) :
    (((executePull env remote branch isDryRun).1).filter isStrategyCmd = [] ∨
     ((executePull env remote branch isDryRun).1).filter isStrategyCmd =
       [Cmd.ffMerge] ∨
     ((executePull env remote branch isDryRun).1).filter isStrategyCmd =
       [Cmd.ffMerge, Cmd.rebase] ∨
     ((executePull env remote branch isDryRun).1).filter isStrategyCmd =
       [Cmd.ffMerge, Cmd.rebase, Cmd.merge]) ∧
    (env.ffMerge = .ok () →
      Cmd.rebase ∉ (executePull env remote branch isDryRun).1 ∧
      Cmd.merge ∉ (executePull env remote branch isDryRun).1) := by
  refine ⟨executePull_strategy_filter env remote branch isDryRun, ?_⟩
  intro hffOk
  have hfil := executePull_ff_success_filter env remote branch isDryRun hffOk
  constructor
  · intro hmem
    have hin : Cmd.rebase ∈
        ((executePull env remote branch isDryRun).1).filter isStrategyCmd :=
      List.mem_filter.mpr ⟨hmem, rfl⟩
    rcases hfil with h | h <;> rw [h] at hin <;> simp at hin
  · intro hmem
    have hin : Cmd.merge ∈
        ((executePull env remote branch isDryRun).1).filter isStrategyCmd :=
      List.mem_filter.mpr ⟨hmem, rfl⟩
    rcases hfil with h | h <;> rw [h] at hin <;> simp at hin

/-- C7 witness: with a fast-forward-eligible state (the baseline
environment), no rebase or merge command is issued. -/
theorem cascade_order_fixed_witness :
    Cmd.rebase ∉ (executePull envBase "origin" none false).1 ∧
    Cmd.merge ∉ (executePull envBase "origin" none false).1 :=
  (cascade_order_fixed envBase "origin" none false).2 rfl
